import Mathlib

/-!
Shallow embedding of `src/etl_project_gdp_chatedit.py`, a single-file ETL
script: it parses an HTML page into (country, raw GDP text) rows, cleans the
GDP text to a number in billions rounded to 2 decimals, writes the result to
CSV and a SQLite table, and runs one `>= 100` query, with timestamped logging
and a top-level try/except/finally.

Modelling conventions:
- An HTML document is abstracted to what the script observes through
  BeautifulSoup: a list of table bodies, each a list of rows, each a list of
  data cells.  A cell carries `text` (its `get_text(strip=True)` display
  text) and `linkText` (the `get_text(strip=True)` of its first `<a>`
  descendant, `none` when `find('a')` returns `None`).
- Python floats are modelled as exact rationals `ℚ` together with an
  explicit round-to-nearest-binary64 operation `toFloat` (ties to even),
  applied after each arithmetic step exactly as IEEE-754 double arithmetic
  does; numpy's `round(2)` is multiply-by-100, round-to-nearest-integer
  (ties to even), divide-by-100, each step in doubles.  Exponent overflow
  and subnormals are not modelled: the script's magnitudes sit far inside
  the normal range, where `toFloat` agrees with binary64.
- Python exceptions are modelled with `Except PyErr`; `IndexError` from list
  indexing and `OSError` from file I/O are the ones the claims mention.
- Digit tests (`str.isdigit`, regex `\d`) are modelled as ASCII decimal
  digits via `Char.isDigit`.
-/

/-- A data cell (`<td>`): its stripped display text and the stripped text of
its first hyperlink, if any. -/
structure Cell where
  text : String
  linkText : Option String
deriving DecidableEq, Repr

/-- A table row (`<tr>`): its list of data cells (`find_all('td')`). -/
structure HtmlRow where
  cells : List Cell
deriving DecidableEq, Repr

/-- A table body (`<tbody>`): its list of rows (`find_all('tr')`). -/
structure TBody where
  rows : List HtmlRow
deriving DecidableEq, Repr

/-- An HTML document, abstracted to its list of table bodies
(`data.find_all('tbody')`). -/
structure HtmlDoc where
  tbodies : List TBody
deriving DecidableEq, Repr

/-- A RawRow: extracted but unvalidated (country, GDP-text) pair, one row of
the dataframe built by `extract`. -/
structure RawRow where
  country : String
  gdp_raw : String
deriving DecidableEq, Repr

/-- A CleanRow: validated (country, GDP in billions) pair, one row of the
dataframe returned by `transform`. -/
structure CleanRow where
  country : String
  gdp_usd_billions : ℚ
deriving DecidableEq, Repr

/-- Python exceptions the script can raise: `IndexError` from list indexing
and `OSError` from writing the log file. -/
inductive PyErr where
  | indexError
  | osError
deriving DecidableEq, Repr

/-- `str(e)` for the modelled exceptions, as interpolated into
`f'ERROR: {e}'`. -/
def pyErrMsg : PyErr → String
  | .indexError => "list index out of range"
  | .osError => "[Errno 13] Permission denied: /home/project/etl_project_log.txt"

/-- `any(ch.isdigit() for ch in s)` (line 50): does the string contain a
decimal digit? -/
def hasDigit (s : String) : Bool :=
  s.data.any Char.isDigit

/-- One iteration of the row loop of `extract` (lines 44-54).  Returns
`.ok none` when the row is skipped (no data cells, first cell without a
hyperlink, or no digit in the GDP text), `.ok (some _)` when a RawRow is
appended, and `.error .indexError` when `col[2]` is read on a row with fewer
than three cells. -/
def extractRow (r : HtmlRow) : Except PyErr (Option RawRow) :=
  match r.cells[0]? with
  | none => .ok none
  | some c0 =>
    match c0.linkText with
    | none => .ok none
    | some country =>
      match r.cells[2]? with
      | none => .error .indexError
      | some c2 =>
        if hasDigit c2.text then .ok (some ⟨country, c2.text⟩) else .ok none

/-- The row loop of `extract`: rows are appended in traversal order; the
first raising row aborts the whole extraction. -/
def extractRows : List HtmlRow → Except PyErr (List RawRow)
  | [] => .ok []
  | r :: rs =>
    match extractRow r with
    | .error e => .error e
    | .ok none => extractRows rs
    | .ok (some raw) =>
      match extractRows rs with
      | .error e => .error e
      | .ok t => .ok (raw :: t)

/-- `extract` (lines 30-55): select the third table body (`tables[2]`,
raising `IndexError` when it does not exist) and run the row loop over its
rows. -/
def extract (doc : HtmlDoc) : Except PyErr (List RawRow) :=
  match doc.tbodies[2]? with
  | none => .error .indexError
  | some tb => extractRows tb.rows

/-- The per-row selection of `extract`, as a pure partial map: the RawRow a
row contributes when no exception intervenes.  Agrees with `extractRow`
wherever the latter succeeds. -/
def rowSelected (r : HtmlRow) : Option RawRow :=
  match r.cells[0]? with
  | none => none
  | some c0 =>
    match c0.linkText with
    | none => none
    | some country =>
      match r.cells[2]? with
      | none => none
      | some c2 =>
        if hasDigit c2.text then some ⟨country, c2.text⟩ else none

/-- The character class kept by `str.replace(r'[^\d.]', '', regex=True)`
(line 68): decimal digits and the literal period. -/
def keptChar (c : Char) : Bool :=
  c.isDigit || c == '.'

/-- `str.replace(r'[^\d.]', '', regex=True)` on one string: drop every
character that is not a decimal digit or a period. -/
def cleanStr (s : String) : String :=
  ⟨s.data.filter keptChar⟩

/-- Value of a digit string read left to right (`0` for the empty list). -/
def digitsVal (cs : List Char) : ℕ :=
  cs.foldl (fun n c => 10 * n + (c.toNat - 48)) 0

/-- `pd.to_numeric(cleaned, errors='coerce')` on one cleaned string,
restricted to the strings `cleanStr` can produce (digits and periods only):
parses when there is at least one digit and at most one period, yielding the
usual decimal value; coerces to `none` (NaN) otherwise. -/
def parseDecimal (s : String) : Option ℚ :=
  let cs := s.data
  if cs.any Char.isDigit = true ∧ cs.count '.' ≤ 1 ∧ cs.all keptChar = true then
    let intPart := cs.takeWhile (fun c => c ≠ '.')
    let fracPart := (cs.dropWhile (fun c => c ≠ '.')).drop 1
    some ((digitsVal intPart : ℚ) + (digitsVal fracPart : ℚ) / (10 : ℚ) ^ fracPart.length)
  else none

/-- Round a rational to the nearest integer, ties to even: the rounding of
IEEE-754 (for significands) and of numpy's `rint`. -/
def roundHalfToEven (q : ℚ) : ℤ :=
  let n := ⌊q⌋
  let frac := q - n
  if frac < 1/2 then n
  else if 1/2 < frac then n + 1
  else if n % 2 = 0 then n else n + 1

/-- The binary64 double nearest to a rational, as an exact rational: scale
into the binade `[2^52, 2^53)` using the floor base-2 logarithm, round the
53-bit significand to nearest with ties to even, and scale back.  Exponent
overflow and subnormals are not modelled (the script's magnitudes sit far
inside the normal range). -/
def toFloat (q : ℚ) : ℚ :=
  if q = 0 then 0
  else if q < 0 then
    -((roundHalfToEven (-q * (2 : ℚ) ^ (52 - Int.log 2 (-q))) : ℚ) *
      (2 : ℚ) ^ (Int.log 2 (-q) - 52))
  else
    (roundHalfToEven (q * (2 : ℚ) ^ (52 - Int.log 2 q)) : ℚ) *
      (2 : ℚ) ^ (Int.log 2 q - 52)

/-- IEEE-754 double division: the exact quotient, rounded to the nearest
double. -/
def fdiv (x y : ℚ) : ℚ :=
  toFloat (x / y)

/-- IEEE-754 double multiplication: the exact product, rounded to the
nearest double. -/
def fmul (x y : ℚ) : ℚ :=
  toFloat (x * y)

/-- `.round(2)` on a double, as numpy computes it: multiply by 100 (IEEE),
round to the nearest integer with ties to even (`rint`; the integer is
exactly representable at these magnitudes), divide by 100 (IEEE). -/
def round2 (q : ℚ) : ℚ :=
  fdiv ((roundHalfToEven (fmul q 100) : ℚ)) 100

/-- What `transform` (lines 58-80) does to one RawRow: clean the GDP text,
coerce it to a number (the nearest double; `none` on failure, later dropped
by `dropna`), divide by 1000 in double arithmetic and round to 2 decimals.
The country travels unchanged; the raw text column is dropped. -/
def transformRow (r : RawRow) : Option CleanRow :=
  match parseDecimal (cleanStr r.gdp_raw) with
  | none => none
  | some q => some ⟨r.country, round2 (fdiv (toFloat q) 1000)⟩

/-- `transform` on a whole table: per-row conversion with unparseable rows
dropped (`dropna`), order preserved.  Total: `errors='coerce'` never
raises. -/
def transformTable (rows : List RawRow) : List CleanRow :=
  rows.filterMap transformRow

/-- The SQL filter of `query_statement` (line 120),
`SELECT * FROM Countries_by_GDP WHERE GDP_USD_billions >= 100`, evaluated
against the loaded rows: keep the rows whose GDP in billions is at least the
threshold, in stored order. -/
def sqlSelectGe (threshold : ℚ) (rows : List CleanRow) : List CleanRow :=
  rows.filter (fun c => threshold ≤ c.gdp_usd_billions)

/-! ## Orchestration (lines 100-131)

The top-level `try/except/finally` block, modelled as a state-passing
function.  `logOk` models whether the log file is writable: `log_progress`
opens the file for append and raises `OSError` when it is not.  CSV write,
connection opening and table load are modelled as always succeeding (their
failure modes are outside every claim). -/

/-- Observable state of one run: log lines written, what was persisted,
whether the SQLite connection was opened, and whether `conn.close()` in the
`finally` block actually closed an open connection. -/
structure RunState where
  log : List String
  csvOut : Option (List CleanRow)
  connOpened : Bool
  dbOut : Option (List CleanRow)
  queryOut : Option (List CleanRow)
  stderrLines : List String
  connClosed : Bool
deriving DecidableEq, Repr

/-- State at process start: nothing written, no connection. -/
def initState : RunState :=
  ⟨[], none, false, none, none, [], false⟩

/-- `log_progress` (lines 20-27): append the message to the log file, or
raise `OSError` when the file is unwritable.  (The timestamp prefix is
irrelevant to every claim and is omitted from the modelled line.) -/
def logProgress (logOk : Bool) (st : RunState) (msg : String) :
    RunState × Option PyErr :=
  if logOk then ({ st with log := st.log ++ [msg] }, none)
  else (st, some .osError)

/-- Sequencing inside the `try` body: stop at the first raised exception,
keeping the state reached so far. -/
def pySeq (r : RunState × Option PyErr)
    (f : RunState → RunState × Option PyErr) : RunState × Option PyErr :=
  match r with
  | (st, some e) => (st, some e)
  | (st, none) => f st

/-- The `try` body (lines 102-123): log, extract, log, transform, log, write
CSV, log, open the connection, log, load the table, log, run the `>= 100`
query, log. -/
def tryBody (logOk : Bool) (doc : HtmlDoc) : RunState × Option PyErr :=
  pySeq (logProgress logOk initState ("Preliminaries complete. Initiating ETL process.")) fun st1 =>
  match extract doc with
  | .error e => (st1, some e)
  | .ok raw =>
  pySeq (logProgress logOk st1 ("Data extraction complete. Initiating transformation process.")) fun st2 =>
  let clean := transformTable raw
  pySeq (logProgress logOk st2 ("Data transformation complete. Initiating loading process.")) fun st3 =>
  pySeq (logProgress logOk { st3 with csvOut := some clean } ("Data saved to CSV file.")) fun st5 =>
  pySeq (logProgress logOk { st5 with connOpened := true } ("SQL connection initiated.")) fun st7 =>
  pySeq (logProgress logOk { st7 with dbOut := some clean } ("Data loaded to database as table. Running the query.")) fun st9 =>
  logProgress logOk { st9 with queryOut := some (sqlSelectGe 100 clean) } ("Process complete.")

/-- `conn.close()` as attempted by the `finally` block when the connection
was never opened: the name `conn` is unbound, so the bare call raises (a
`NameError`, modelled under the single non-index error constructor); when it
was opened, the call closes it and succeeds. -/
def connCloseRaw (opened : Bool) : Except PyErr Unit :=
  if opened then .ok () else .error .osError

/-- The `finally` block (lines 127-131): try to close, swallow any
exception (`except Exception: pass`).  Total — it never propagates. -/
def finallyClose (st : RunState) : RunState :=
  match connCloseRaw st.connOpened with
  | .ok _ => { st with connClosed := true }
  | .error _ => st

/-- Result of a run: `completed` when the process falls off the end of the
`try/except/finally`, `aborted e` when an exception raised inside the
`except` block propagates after the `finally` block runs. -/
inductive RunResult where
  | completed (st : RunState)
  | aborted (e : PyErr) (st : RunState)
deriving DecidableEq, Repr

/-- The whole orchestration (lines 102-131): run the `try` body; on an
exception, the `except` block logs `ERROR: <e>` and then prints to stderr —
if that logging call itself raises, the new exception propagates (the print
never happens); the `finally` block always runs last. -/
def runPipeline (logOk : Bool) (doc : HtmlDoc) : RunResult :=
  match tryBody logOk doc with
  | (st, none) => .completed (finallyClose st)
  | (st, some e) =>
    match logProgress logOk st ("ERROR: " ++ pyErrMsg e) with
    | (st2, none) =>
      .completed (finallyClose { st2 with stderrLines := st2.stderrLines ++ ["ERROR: " ++ pyErrMsg e] })
    | (st2, some e2) => .aborted e2 (finallyClose st2)

/-! ## Concrete documents used as witnesses and counterexamples -/

/-- A document with no third table body. -/
def docNoTbody : HtmlDoc := ⟨[]⟩

/-- A row with a hyperlink in its first (and only) cell: `col[2]` raises. -/
def shortRow : HtmlRow := ⟨[⟨"X", some ("X")⟩]⟩

/-- A document whose third table body holds only `shortRow`. -/
def docShortRow : HtmlDoc := ⟨[⟨[]⟩, ⟨[]⟩, ⟨[shortRow]⟩]⟩

/-- A document whose only kept row has a first cell with display text
`"X[1]"` (a footnote outside the hyperlink) while its hyperlink text is
`"X"`. -/
def docLinkText : HtmlDoc :=
  ⟨[⟨[]⟩, ⟨[]⟩, ⟨[⟨[⟨"X[1]", some ("X")⟩, ⟨"", none⟩, ⟨"100", none⟩]⟩]⟩]⟩

/-- A well-behaved document: one skipped header row (no hyperlink), one kept
data row, one row skipped for a digitless GDP cell. -/
def docGood : HtmlDoc :=
  ⟨[⟨[]⟩, ⟨[]⟩,
    ⟨[⟨[⟨"Country", none⟩, ⟨"", none⟩, ⟨"GDP", none⟩]⟩,
      ⟨[⟨"Aland", some ("Aland")⟩, ⟨"1", none⟩, ⟨"1,234", none⟩]⟩,
      ⟨[⟨"Borduria", some ("Borduria")⟩, ⟨"2", none⟩, ⟨"—", none⟩]⟩]⟩]⟩

/-- The third table body of `docGood`. -/
def docGoodTb : TBody :=
  ⟨[⟨[⟨"Country", none⟩, ⟨"", none⟩, ⟨"GDP", none⟩]⟩,
    ⟨[⟨"Aland", some ("Aland")⟩, ⟨"1", none⟩, ⟨"1,234", none⟩]⟩,
    ⟨[⟨"Borduria", some ("Borduria")⟩, ⟨"2", none⟩, ⟨"—", none⟩]⟩]⟩

/-! ## Helper lemmas -/

/-- The inclusion condition of the extraction loop as a pure predicate: at
least one data cell (and a third one), a hyperlink in the first cell, and a
digit in the third cell's display text. -/
def rowIncludedCond (r : HtmlRow) : Bool :=
  match r.cells[0]?, r.cells[2]? with
  | some c0, some c2 => c0.linkText.isSome && hasDigit c2.text
  | _, _ => false

theorem extractRow_ok_eq {r : HtmlRow} {o : Option RawRow}
    (h : extractRow r = .ok o) : rowSelected r = o := by
  unfold extractRow rowSelected at *
  cases h0 : r.cells[0]? with
  | none => simp [h0] at h ⊢; exact h
  | some c0 =>
    cases hl : c0.linkText with
    | none => simp [h0, hl] at h ⊢; exact h
    | some country =>
      cases h2 : r.cells[2]? with
      | none => simp [h0, hl, h2] at h
      | some c2 =>
        by_cases hd : hasDigit c2.text = true <;>
          simp [h0, hl, h2, hd] at h ⊢ <;> exact h

theorem extractRows_ok_eq :
    ∀ {rows : List HtmlRow} {t : List RawRow},
      extractRows rows = .ok t → t = rows.filterMap rowSelected := by
  intro rows
  induction rows with
  | nil => intro t h; simp [extractRows] at h; simp [h.symm]
  | cons r rs ih =>
    intro t h
    unfold extractRows at h
    cases hr : extractRow r with
    | error e => rw [hr] at h; exact absurd h (by simp)
    | ok o =>
      rw [hr] at h
      have hsel := extractRow_ok_eq hr
      cases o with
      | none => simp at h; simp [List.filterMap_cons, hsel, ih h]
      | some raw =>
        simp at h
        cases hrs : extractRows rs with
        | error e => rw [hrs] at h; exact absurd h (by simp)
        | ok rest =>
          rw [hrs] at h
          simp at h
          simp [List.filterMap_cons, hsel, h.symm, ih hrs]

theorem rowSelected_isSome_eq (r : HtmlRow) :
    (rowSelected r).isSome = rowIncludedCond r := by
  unfold rowSelected rowIncludedCond
  cases h0 : r.cells[0]? with
  | none => simp
  | some c0 =>
    cases h2 : r.cells[2]? with
    | none => cases hl : c0.linkText <;> simp [hl]
    | some c2 =>
      cases hl : c0.linkText with
      | none => simp [hl]
      | some country => by_cases hd : hasDigit c2.text = true <;> simp [hl, hd]

theorem rowSelected_fields {r : HtmlRow} {raw : RawRow}
    (h : rowSelected r = some raw) :
    ∃ c0 c2, r.cells[0]? = some c0 ∧ r.cells[2]? = some c2 ∧
      c0.linkText = some raw.country ∧ raw.gdp_raw = c2.text ∧
      hasDigit c2.text = true := by
  unfold rowSelected at h
  cases h0 : r.cells[0]? with
  | none => simp [h0] at h
  | some c0 =>
    simp only [h0] at h
    cases hl : c0.linkText with
    | none => simp [hl] at h
    | some country =>
      simp only [hl] at h
      cases h2 : r.cells[2]? with
      | none => simp [h2] at h
      | some c2 =>
        simp only [h2] at h
        by_cases hd : hasDigit c2.text = true
        · rw [if_pos hd] at h
          refine ⟨c0, c2, rfl, rfl, ?_, ?_, hd⟩ <;>
            simp [hl, ← Option.some.inj h]
        · rw [if_neg hd] at h; exact absurd h (by simp)

theorem parseDecimal_nonneg {s : String} {q : ℚ}
    (h : parseDecimal s = some q) : 0 ≤ q := by
  simp only [parseDecimal] at h
  split at h
  · have hq := Option.some.inj h
    rw [← hq]
    positivity
  · exact absurd h (by simp)

theorem parseDecimal_hasDigit {s : String} {q : ℚ}
    (h : parseDecimal s = some q) : hasDigit s = true := by
  simp only [parseDecimal] at h
  split at h
  · next hc => exact hc.1
  · exact absurd h (by simp)

theorem hasDigit_cleanStr {s : String}
    (h : hasDigit (cleanStr s) = true) : hasDigit s = true := by
  unfold hasDigit cleanStr at *
  rw [List.any_eq_true] at h ⊢
  obtain ⟨c, hc, hd⟩ := h
  exact ⟨c, List.mem_of_mem_filter hc, hd⟩

theorem roundHalfToEven_nonneg {q : ℚ} (h : 0 ≤ q) :
    0 ≤ roundHalfToEven q := by
  have hn : (0 : ℤ) ≤ ⌊q⌋ := Int.floor_nonneg.mpr h
  simp only [roundHalfToEven]
  split_ifs <;> omega

theorem toFloat_nonneg {q : ℚ} (h : 0 ≤ q) : 0 ≤ toFloat q := by
  unfold toFloat
  rcases eq_or_lt_of_le h with h0 | h0
  · rw [if_pos h0.symm]
  · rw [if_neg (ne_of_gt h0), if_neg (not_lt.mpr h)]
    apply mul_nonneg
    · exact_mod_cast roundHalfToEven_nonneg
        (mul_nonneg h (le_of_lt (zpow_pos (by norm_num) _)))
    · exact le_of_lt (zpow_pos (by norm_num) _)

theorem fdiv_nonneg_of_nonneg {x y : ℚ} (hx : 0 ≤ x) (hy : 0 ≤ y) :
    0 ≤ fdiv x y := by
  unfold fdiv
  exact toFloat_nonneg (div_nonneg hx hy)

theorem round2_nonneg {q : ℚ} (h : 0 ≤ q) : 0 ≤ round2 q := by
  unfold round2 fmul
  have h1 : (0 : ℚ) ≤ toFloat (q * 100) := toFloat_nonneg (by positivity)
  have h2 : (0 : ℤ) ≤ roundHalfToEven (toFloat (q * 100)) :=
    roundHalfToEven_nonneg h1
  exact fdiv_nonneg_of_nonneg (Int.cast_nonneg.mpr h2) (by norm_num)

/-- Floor base-2 logarithm pinned by explicit power-of-two bounds. -/
theorem int_log2_eq (q : ℚ) (e : ℕ) (hq : 0 < q)
    (h1 : (2 : ℚ) ^ e ≤ q) (h2 : q < (2 : ℚ) ^ (e + 1)) :
    Int.log 2 q = (e : ℤ) := by
  have hle : (e : ℤ) ≤ Int.log 2 q := by
    rw [← Int.zpow_le_iff_le_log (by norm_num) hq]
    rw [show ((2 : ℕ) : ℚ) = (2 : ℚ) from by norm_num, zpow_natCast]
    exact h1
  have hlt : Int.log 2 q < (e : ℤ) + 1 := by
    rw [← Int.lt_zpow_iff_log_lt (by norm_num) hq]
    rw [show ((2 : ℕ) : ℚ) = (2 : ℚ) from by norm_num]
    rw [show ((e : ℤ) + 1) = ((e + 1 : ℕ) : ℤ) from by push_cast; ring]
    rw [zpow_natCast]
    exact h2
  omega

/-- Ties-to-even rounding pinned when the value is below the half-way
point. -/
theorem roundHalfToEven_eq_of_lt (q : ℚ) (n : ℤ) (h1 : (n : ℚ) ≤ q)
    (h2 : q < (n : ℚ) + 1/2) : roundHalfToEven q = n := by
  have hf : ⌊q⌋ = n := Int.floor_eq_iff.mpr ⟨h1, by linarith⟩
  simp only [roundHalfToEven, hf]
  rw [if_pos (by linarith)]

/-- Ties-to-even rounding pinned when the value is above the half-way
point. -/
theorem roundHalfToEven_eq_of_gt (q : ℚ) (n : ℤ) (h1 : (n : ℚ) + 1/2 < q)
    (h2 : q < (n : ℚ) + 1) : roundHalfToEven q = n + 1 := by
  have hf : ⌊q⌋ = n := Int.floor_eq_iff.mpr ⟨by linarith, by linarith⟩
  simp only [roundHalfToEven, hf]
  rw [if_neg (by linarith), if_pos (by linarith)]

/-- Ties-to-even rounding pinned at an exact tie with odd floor: round
up. -/
theorem roundHalfToEven_eq_of_tie_odd (q : ℚ) (n : ℤ) (h1 : q = (n : ℚ) + 1/2)
    (h2 : n % 2 = 1) : roundHalfToEven q = n + 1 := by
  have hf : ⌊q⌋ = n := Int.floor_eq_iff.mpr ⟨by linarith, by linarith⟩
  simp only [roundHalfToEven, hf]
  rw [if_neg (by linarith), if_neg (by linarith), if_neg (by omega)]

/-- Evaluation rule for `toFloat` at a positive rational, given its binade
exponent and rounded significand. -/
theorem toFloat_eval (q : ℚ) (e : ℕ) (m : ℤ) (he : e ≤ 52) (hq : 0 < q)
    (hlog : Int.log 2 q = (e : ℤ))
    (hm : roundHalfToEven (q * (2 : ℚ) ^ (52 - e)) = m) :
    toFloat q = (m : ℚ) / (2 : ℚ) ^ (52 - e) := by
  have hzq : (52 : ℤ) - (e : ℤ) = ((52 - e : ℕ) : ℤ) := by omega
  have hp : (2 : ℚ) ^ ((52 : ℤ) - (e : ℤ)) = (2 : ℚ) ^ (52 - e : ℕ) := by
    rw [hzq, zpow_natCast]
  have hp2 : (2 : ℚ) ^ ((e : ℤ) - (52 : ℤ)) = ((2 : ℚ) ^ (52 - e : ℕ))⁻¹ := by
    rw [show (e : ℤ) - (52 : ℤ) = -((52 : ℤ) - (e : ℤ)) from by ring, zpow_neg,
      hp]
  unfold toFloat
  rw [if_neg (ne_of_gt hq), if_neg (not_lt.mpr (le_of_lt hq)), hlog, hp, hm,
    hp2, div_eq_mul_inv]

theorem transformRow_country {r : RawRow} {c : CleanRow}
    (h : transformRow r = some c) : c.country = r.country := by
  unfold transformRow at h
  cases hp : parseDecimal (cleanStr r.gdp_raw) with
  | none => simp [hp] at h
  | some q => simp only [hp] at h; simp [← Option.some.inj h]

theorem transformRow_gdp {r : RawRow} {c : CleanRow}
    (h : transformRow r = some c) :
    ∃ q, parseDecimal (cleanStr r.gdp_raw) = some q ∧
      c.gdp_usd_billions = round2 (fdiv (toFloat q) 1000) := by
  unfold transformRow at h
  cases hp : parseDecimal (cleanStr r.gdp_raw) with
  | none => simp [hp] at h
  | some q =>
    simp only [hp] at h
    exact ⟨q, rfl, by simp [← Option.some.inj h]⟩

theorem filterMap_map_sublist {α β γ : Type} (f : α → Option β) (g : β → γ)
    (k : α → γ) (hf : ∀ a b, f a = some b → g b = k a) :
    ∀ l : List α, ((l.filterMap f).map g).Sublist (l.map k) := by
  intro l
  induction l with
  | nil => simp
  | cons a as ih =>
    cases hfa : f a with
    | none =>
      rw [List.filterMap_cons, hfa, List.map_cons]
      exact ih.cons (k a)
    | some b =>
      rw [List.filterMap_cons, hfa, List.map_cons, List.map_cons, hf a b hfa]
      exact ih.cons₂ (k a)

theorem parse_1234 : parseDecimal ("1234") = some 1234 := by
  simp [parseDecimal, digitsVal, keptChar]

theorem parse_256785 : parseDecimal ("256785") = some 256785 := by
  simp [parseDecimal, digitsVal, keptChar]

theorem toFloat_1234 : toFloat (1234 : ℚ) = 1234 := by
  have hm : roundHalfToEven ((1234 : ℚ) * (2 : ℚ) ^ (52 - 10)) =
      5427189394702336 :=
    roundHalfToEven_eq_of_lt _ _ (by norm_num) (by norm_num)
  rw [toFloat_eval (1234 : ℚ) 10 5427189394702336 (by norm_num) (by norm_num)
    (int_log2_eq (1234 : ℚ) 10 (by norm_num) (by norm_num) (by norm_num)) hm]
  norm_num

theorem toFloat_1p234 :
    toFloat ((1234 : ℚ)/1000) = (5557441940175192 : ℚ)/2^52 := by
  have hm : roundHalfToEven ((1234 : ℚ)/1000 * (2 : ℚ) ^ (52 - 0)) =
      5557441940175192 :=
    roundHalfToEven_eq_of_lt _ _ (by norm_num) (by norm_num)
  rw [toFloat_eval ((1234 : ℚ)/1000) 0 5557441940175192 (by norm_num)
    (by norm_num)
    (int_log2_eq ((1234 : ℚ)/1000) 0 (by norm_num) (by norm_num) (by norm_num))
    hm]
  norm_num

theorem toFloat_123p4 :
    toFloat ((5557441940175192 : ℚ)/2^52 * 100) =
      (8683503031523738 : ℚ)/2^46 := by
  have hm : roundHalfToEven
      ((5557441940175192 : ℚ)/2^52 * 100 * (2 : ℚ) ^ (52 - 6)) =
      8683503031523738 := by
    rw [roundHalfToEven_eq_of_tie_odd
      ((5557441940175192 : ℚ)/2^52 * 100 * (2 : ℚ) ^ (52 - 6))
      8683503031523737 (by norm_num) (by norm_num)]
    norm_num
  rw [toFloat_eval ((5557441940175192 : ℚ)/2^52 * 100) 6 8683503031523738
    (by norm_num) (by norm_num)
    (int_log2_eq ((5557441940175192 : ℚ)/2^52 * 100) 6 (by norm_num)
      (by norm_num) (by norm_num)) hm]
  norm_num

theorem rint_123p4 : roundHalfToEven ((8683503031523738 : ℚ)/2^46) = 123 :=
  roundHalfToEven_eq_of_lt _ _ (by norm_num) (by norm_num)

theorem toFloat_256785 : toFloat (256785 : ℚ) = 256785 := by
  have hm : roundHalfToEven ((256785 : ℚ) * (2 : ℚ) ^ (52 - 17)) =
      8823065416826880 :=
    roundHalfToEven_eq_of_lt _ _ (by norm_num) (by norm_num)
  rw [toFloat_eval (256785 : ℚ) 17 8823065416826880 (by norm_num) (by norm_num)
    (int_log2_eq (256785 : ℚ) 17 (by norm_num) (by norm_num) (by norm_num)) hm]
  norm_num

theorem toFloat_256p785 :
    toFloat ((256785 : ℚ)/1000) = (4517409493415363 : ℚ)/2^44 := by
  have hm : roundHalfToEven ((256785 : ℚ)/1000 * (2 : ℚ) ^ (52 - 8)) =
      4517409493415363 := by
    rw [roundHalfToEven_eq_of_gt ((256785 : ℚ)/1000 * (2 : ℚ) ^ (52 - 8))
      4517409493415362 (by norm_num) (by norm_num)]
    norm_num
  rw [toFloat_eval ((256785 : ℚ)/1000) 8 4517409493415363 (by norm_num)
    (by norm_num)
    (int_log2_eq ((256785 : ℚ)/1000) 8 (by norm_num) (by norm_num)
      (by norm_num)) hm]
  norm_num

theorem toFloat_25678p5 :
    toFloat ((4517409493415363 : ℚ)/2^44 * 100) =
      (7058452333461505 : ℚ)/2^38 := by
  have hm : roundHalfToEven
      ((4517409493415363 : ℚ)/2^44 * 100 * (2 : ℚ) ^ (52 - 14)) =
      7058452333461505 := by
    rw [roundHalfToEven_eq_of_gt
      ((4517409493415363 : ℚ)/2^44 * 100 * (2 : ℚ) ^ (52 - 14))
      7058452333461504 (by norm_num) (by norm_num)]
    norm_num
  rw [toFloat_eval ((4517409493415363 : ℚ)/2^44 * 100) 14 7058452333461505
    (by norm_num) (by norm_num)
    (int_log2_eq ((4517409493415363 : ℚ)/2^44 * 100) 14 (by norm_num)
      (by norm_num) (by norm_num)) hm]
  norm_num

theorem rint_25678p5 :
    roundHalfToEven ((7058452333461505 : ℚ)/2^38) = 25679 := by
  rw [roundHalfToEven_eq_of_gt ((7058452333461505 : ℚ)/2^38) 25678
    (by norm_num) (by norm_num)]
  norm_num

theorem toFloat_256p79 :
    toFloat ((25679 : ℚ)/100) = (4517497454345585 : ℚ)/2^44 := by
  have hm : roundHalfToEven ((25679 : ℚ)/100 * (2 : ℚ) ^ (52 - 8)) =
      4517497454345585 := by
    rw [roundHalfToEven_eq_of_gt ((25679 : ℚ)/100 * (2 : ℚ) ^ (52 - 8))
      4517497454345584 (by norm_num) (by norm_num)]
    norm_num
  rw [toFloat_eval ((25679 : ℚ)/100) 8 4517497454345585 (by norm_num)
    (by norm_num)
    (int_log2_eq ((25679 : ℚ)/100) 8 (by norm_num) (by norm_num) (by norm_num))
    hm]
  norm_num

theorem toFloat_25p68 :
    toFloat ((2568 : ℚ)/100) = (7228277401929646 : ℚ)/2^48 := by
  have hm : roundHalfToEven ((2568 : ℚ)/100 * (2 : ℚ) ^ (52 - 4)) =
      7228277401929646 :=
    roundHalfToEven_eq_of_lt _ _ (by norm_num) (by norm_num)
  rw [toFloat_eval ((2568 : ℚ)/100) 4 7228277401929646 (by norm_num)
    (by norm_num)
    (int_log2_eq ((2568 : ℚ)/100) 4 (by norm_num) (by norm_num) (by norm_num))
    hm]
  norm_num

theorem transformRow_1234 :
    transformRow ⟨"A", "1,234"⟩ = some ⟨"A", toFloat ((123 : ℚ)/100)⟩ := by
  have hclean : cleanStr ("1,234") = "1234" := by decide
  rw [transformRow, hclean, parse_1234]
  show some (CleanRow.mk ("A") (round2 (fdiv (toFloat (1234 : ℚ)) 1000))) =
    some (CleanRow.mk ("A") (toFloat ((123 : ℚ)/100)))
  rw [round2]
  simp only [fdiv, fmul]
  rw [toFloat_1234, toFloat_1p234, toFloat_123p4, rint_123p4]
  norm_num

theorem transformRow_25678 :
    transformRow ⟨"B", "25,678[5]"⟩ = some ⟨"B", toFloat ((25679 : ℚ)/100)⟩ := by
  have hclean : cleanStr ("25,678[5]") = "256785" := by decide
  rw [transformRow, hclean, parse_256785]
  show some (CleanRow.mk ("B") (round2 (fdiv (toFloat (256785 : ℚ)) 1000))) =
    some (CleanRow.mk ("B") (toFloat ((25679 : ℚ)/100)))
  rw [round2]
  simp only [fdiv, fmul]
  rw [toFloat_256785, toFloat_256p785, toFloat_25678p5, rint_25678p5]
  norm_num

/-! ## Claims -/

/-- C1 (counterexample): the spec's second example is wrong on the code.
Cleaning `"25,678[5]"` keeps the footnote digit (`"256785"`), and the stored
double `256785.0/1000.0` lies strictly above the decimal tie 256.785, so the
converted value is 256.79 billions — the double nearest `25679/100` — not
the claimed 25.68 under either reading (the exact rational `2568/100` or its
nearest double). -/
theorem gdp_example_25678_not_25_68 :
    transformRow ⟨"B", "25,678[5]"⟩ = some ⟨"B", toFloat ((25679 : ℚ)/100)⟩ ∧
    transformRow ⟨"B", "25,678[5]"⟩ ≠ some ⟨"B", (2568 : ℚ)/100⟩ ∧
    transformRow ⟨"B", "25,678[5]"⟩ ≠ some ⟨"B", toFloat ((2568 : ℚ)/100)⟩ := by
  refine ⟨transformRow_25678, fun hc => ?_, fun hc => ?_⟩
  · rw [transformRow_25678] at hc
    have h2 := congrArg (fun o => Option.map CleanRow.gdp_usd_billions o) hc
    simp at h2
    rw [toFloat_256p79] at h2
    norm_num at h2
  · rw [transformRow_25678] at hc
    have h2 := congrArg (fun o => Option.map CleanRow.gdp_usd_billions o) hc
    simp at h2
    rw [toFloat_256p79, toFloat_25p68] at h2
    norm_num at h2

/-- C1 (amended): every converted row's `gdp_usd_billions` is the cleaned
raw text, coerced to the nearest double, divided by 1000 and rounded to 2
decimal places in IEEE double arithmetic; raw text `"1,234"` yields 1.23
(the double nearest `123/100`), while raw text `"25,678[5]"` yields 256.79
(the double nearest `25679/100`): the footnote digit survives cleaning, and
the stored double sits above the 256.785 tie. -/
theorem gdp_conversion_rule :
    (∀ (r : RawRow) (c : CleanRow), transformRow r = some c →
      ∃ q, parseDecimal (cleanStr r.gdp_raw) = some q ∧
        c.gdp_usd_billions = round2 (fdiv (toFloat q) 1000)) ∧
    transformRow ⟨"A", "1,234"⟩ = some ⟨"A", toFloat ((123 : ℚ)/100)⟩ ∧
    transformRow ⟨"B", "25,678[5]"⟩ = some ⟨"B", toFloat ((25679 : ℚ)/100)⟩ :=
  ⟨fun _ _ h => transformRow_gdp h, transformRow_1234, transformRow_25678⟩

/-- C1 (witness): the conversion rule applied to the concrete raw text
`"1,234"`. -/
theorem gdp_conversion_rule_witness :
    ∃ q, parseDecimal (cleanStr ("1,234")) = some q ∧
      toFloat ((123 : ℚ)/100) = round2 (fdiv (toFloat q) 1000) :=
  gdp_conversion_rule.1 ⟨"A", "1,234"⟩ ⟨"A", toFloat ((123 : ℚ)/100)⟩
    transformRow_1234

/-- C3: `transform` is per-row `filterMap`: rows whose cleaned string is
empty (the empty string never parses) or otherwise unparseable are dropped,
and the transformation is a total function — it never raises. -/
theorem transform_drops_unparseable :
    (∀ rows, transformTable rows = rows.filterMap transformRow) ∧
    parseDecimal ("") = none ∧
    (∀ r : RawRow, parseDecimal (cleanStr r.gdp_raw) = none →
      transformRow r = none) := by
  refine ⟨fun rows => rfl, by decide, fun r h => ?_⟩
  rw [transformRow, h]

/-- C3 (witness): a dash placeholder cleans to the empty string and its row
is dropped. -/
theorem transform_drops_unparseable_witness :
    transformRow ⟨"X", "—"⟩ = none :=
  transform_drops_unparseable.2.2 ⟨"X", "—"⟩ (by decide)

/-- C5: every CleanRow produced by `transform` has a non-negative (and, the
values being exact rationals, finite) GDP value, and comes from a RawRow
whose raw text contained at least one decimal digit. -/
theorem cleanrow_invariant :
    ∀ (rows : List RawRow) (c : CleanRow), c ∈ transformTable rows →
      0 ≤ c.gdp_usd_billions ∧
      ∃ r ∈ rows, transformRow r = some c ∧ hasDigit r.gdp_raw = true := by
  intro rows c hc
  rw [transformTable, List.mem_filterMap] at hc
  obtain ⟨r, hr, hrc⟩ := hc
  obtain ⟨q, hq, hgdp⟩ := transformRow_gdp hrc
  have hq0 : 0 ≤ q := parseDecimal_nonneg hq
  constructor
  · rw [hgdp]
    exact round2_nonneg (fdiv_nonneg_of_nonneg (toFloat_nonneg hq0) (by norm_num))
  · exact ⟨r, hr, hrc, hasDigit_cleanStr (parseDecimal_hasDigit hq)⟩

/-- C5 (witness): the invariant at the singleton table built from raw text
`"1,234"`. -/
theorem cleanrow_invariant_witness :
    0 ≤ ((⟨"A", toFloat ((123 : ℚ)/100)⟩ : CleanRow)).gdp_usd_billions ∧
    ∃ r ∈ [(⟨"A", "1,234"⟩ : RawRow)],
      transformRow r = some ⟨"A", toFloat ((123 : ℚ)/100)⟩ ∧
      hasDigit r.gdp_raw = true := by
  have h : transformTable [(⟨"A", "1,234"⟩ : RawRow)] =
      [⟨"A", toFloat ((123 : ℚ)/100)⟩] := by
    rw [transformTable, List.filterMap_cons, transformRow_1234]
    rfl
  exact cleanrow_invariant [⟨"A", "1,234"⟩] ⟨"A", toFloat ((123 : ℚ)/100)⟩
    (h ▸ List.mem_singleton.mpr rfl)

/-- C7: the `>= 100` query on the stored rows {(A, 150.0), (B, 99.9),
(C, 100.0)} returns exactly the rows for A and C — the comparison includes
100.0 itself. -/
theorem query_ge100_scenario :
    sqlSelectGe 100 [⟨"A", 150⟩, ⟨"B", (999 : ℚ)/10⟩, ⟨"C", 100⟩] =
      [⟨"A", 150⟩, ⟨"C", 100⟩] := by
  rw [sqlSelectGe, List.filter_cons, List.filter_cons, List.filter_cons]
  norm_num

/-- C10: a row whose first cell has a hyperlink but which has fewer than
three data cells makes `extract` raise `IndexError` at `col[2]` instead of
skipping the row; the whole extraction fails on a document containing such
a row. -/
theorem short_row_raises_index_error :
    extractRow shortRow = .error PyErr.indexError ∧
    extract docShortRow = .error PyErr.indexError :=
  ⟨rfl, rfl⟩

/-- When extraction raises, the run reaches the `except` block (with a
writable log file): one startup line was logged, the handler appends the
`ERROR:` line and prints it to stderr, nothing was persisted, the connection
was never opened, and the `finally` block's close attempt is swallowed. -/
theorem runPipeline_extract_error (doc : HtmlDoc) (e : PyErr)
    (h : extract doc = .error e) :
    runPipeline true doc =
      .completed ⟨["Preliminaries complete. Initiating ETL process.",
                   "ERROR: " ++ pyErrMsg e],
                  none, false, none, none, ["ERROR: " ++ pyErrMsg e], false⟩ := by
  simp [runPipeline, tryBody, pySeq, logProgress, initState, h, finallyClose,
    connCloseRaw]

/-- C2 (counterexample): on a document whose kept row has first-cell display
text `"X[1]"` but hyperlink text `"X"`, the extractor emits country `"X"` —
the hyperlink's text — not the cell's display text `"X[1]"` the claim
names. -/
theorem extract_country_not_cell_text :
    extract docLinkText = .ok [⟨"X", "100"⟩] ∧
    extract docLinkText ≠ .ok [⟨"X[1]", "100"⟩] := by
  have h : extract docLinkText = .ok [⟨"X", "100"⟩] := rfl
  refine ⟨h, ?_⟩
  rw [h]
  intro hc
  have h2 := Option.some.inj (congrArg (fun x => x.toOption) hc)
  simp at h2

/-- C2 (amended): when the third table body exists and extraction succeeds,
the output is exactly the per-row selection, in source order; a row is
selected iff it has a data cell, its first cell carries a hyperlink and its
third cell's display text contains a digit; each selected row carries the
first cell's *hyperlink* text as country and the third cell's display text
as GDP text. -/
theorem extract_row_selection (doc : HtmlDoc) (tb : TBody) (t : List RawRow)
    (h1 : doc.tbodies[2]? = some tb) (h2 : extract doc = .ok t) :
    t = tb.rows.filterMap rowSelected ∧
    (∀ r, (rowSelected r).isSome = rowIncludedCond r) ∧
    (∀ r raw, rowSelected r = some raw →
      ∃ c0 c2, r.cells[0]? = some c0 ∧ r.cells[2]? = some c2 ∧
        c0.linkText = some raw.country ∧ raw.gdp_raw = c2.text) := by
  refine ⟨?_, rowSelected_isSome_eq, fun r raw h => ?_⟩
  · simp only [extract, h1] at h2
    exact extractRows_ok_eq h2
  · obtain ⟨c0, c2, ha, hb, hc, hd, _⟩ := rowSelected_fields h
    exact ⟨c0, c2, ha, hb, hc, hd⟩

/-- C2 (witness): the characterization applied to the concrete document
`docGood` (one header row, one kept row, one digitless row). -/
theorem extract_row_selection_witness :
    [(⟨"Aland", "1,234"⟩ : RawRow)] = docGoodTb.rows.filterMap rowSelected :=
  (extract_row_selection docGood docGoodTb [⟨"Aland", "1,234"⟩] rfl rfl).1

/-- C4: when the third table body does not exist, `extract` fails with the
index error; the error is not handled inside `extract` and the top-level
handler logs it as an `ERROR:` line. -/
theorem extract_missing_tbody_propagates (doc : HtmlDoc)
    (h : doc.tbodies[2]? = none) :
    extract doc = .error PyErr.indexError ∧
    ∃ st, runPipeline true doc = .completed st ∧
      ("ERROR: list index out of range") ∈ st.log ∧ st.connOpened = false := by
  have hext : extract doc = .error PyErr.indexError := by
    simp only [extract, h]
  exact ⟨hext, _, runPipeline_extract_error doc PyErr.indexError hext,
    by simp [pyErrMsg], rfl⟩

/-- C4 (witness): the propagation at a concrete document with no third
table body. -/
theorem extract_missing_tbody_propagates_witness :
    extract docNoTbody = .error PyErr.indexError ∧
    ∃ st, runPipeline true docNoTbody = .completed st ∧
      ("ERROR: list index out of range") ∈ st.log ∧ st.connOpened = false :=
  extract_missing_tbody_propagates docNoTbody rfl

/-- C6: order is preserved through the pipeline: a successful extraction is
the source rows' selection in traversal order, `transform` is an
order-preserving per-row `filterMap`, and the transformed countries form a
sublist (same relative order, rows only removed) of the extracted
countries. -/
theorem pipeline_preserves_order (doc : HtmlDoc) (tb : TBody)
    (t : List RawRow) (h1 : doc.tbodies[2]? = some tb)
    (h2 : extract doc = .ok t) :
    t = tb.rows.filterMap rowSelected ∧
    transformTable t = t.filterMap transformRow ∧
    ((transformTable t).map CleanRow.country).Sublist (t.map RawRow.country) := by
  refine ⟨?_, rfl, ?_⟩
  · simp only [extract, h1] at h2
    exact extractRows_ok_eq h2
  · exact filterMap_map_sublist transformRow CleanRow.country RawRow.country
      (fun r c h => transformRow_country h) t

/-- C6 (witness): order preservation at the concrete document `docGood`. -/
theorem pipeline_preserves_order_witness :
    ((transformTable [(⟨"Aland", "1,234"⟩ : RawRow)]).map CleanRow.country).Sublist
      ([(⟨"Aland", "1,234"⟩ : RawRow)].map RawRow.country) :=
  (pipeline_preserves_order docGood docGoodTb [⟨"Aland", "1,234"⟩] rfl rfl).2.2

/-- C8: a run whose extraction raises still logs a line beginning with
`ERROR:`, completes rather than aborting, never opened the connection, and
the `finally` block's bare `conn.close()` — which would raise on the unbound
name — is swallowed, leaving the close a no-op. -/
theorem extraction_failure_logged_and_close_noop (doc : HtmlDoc) (e : PyErr)
    (h : extract doc = .error e) :
    connCloseRaw false = .error PyErr.osError ∧
    ∃ st, runPipeline true doc = .completed st ∧
      (∃ m ∈ st.log, ∃ rest, m = "ERROR:" ++ rest) ∧
      st.connOpened = false ∧ st.connClosed = false := by
  refine ⟨rfl, _, runPipeline_extract_error doc e h, ?_, rfl, rfl⟩
  refine ⟨"ERROR: " ++ pyErrMsg e, by simp, " " ++ pyErrMsg e, ?_⟩
  rw [← String.append_assoc]
  exact congrArg (fun s => s ++ pyErrMsg e) (by decide)

/-- C8 (witness): the logged-error and close-no-op behaviour at a concrete
document with no third table body. -/
theorem extraction_failure_logged_and_close_noop_witness :
    connCloseRaw false = .error PyErr.osError ∧
    ∃ st, runPipeline true docNoTbody = .completed st ∧
      (∃ m ∈ st.log, ∃ rest, m = "ERROR:" ++ rest) ∧
      st.connOpened = false ∧ st.connClosed = false :=
  extraction_failure_logged_and_close_noop docNoTbody PyErr.indexError rfl

/-- C9 (counterexample): with an unwritable log file, the very first
`log_progress` call raises, the handler's own `log_progress` call raises
again, and the run aborts — the logger's failure does terminate the
pipeline, precisely when it is invoked from the top-level error handler. -/
theorem logger_failure_aborts_run :
    runPipeline false docNoTbody = .aborted PyErr.osError initState ∧
    ∀ st, runPipeline false docNoTbody ≠ RunResult.completed st := by
  refine ⟨rfl, fun st hc => ?_⟩
  rw [show runPipeline false docNoTbody = .aborted PyErr.osError initState
    from rfl] at hc
  exact absurd hc (by simp)

/-- C9 (amended): `log_progress` opens the log file itself, so it can
raise; a failure inside the `try` body is caught by the top-level handler,
but the handler's own logging call fails the same way and the run aborts
with that logging error — uniformly in the input document. -/
theorem logger_unwritable_aborts (doc : HtmlDoc) :
    runPipeline false doc = .aborted PyErr.osError initState :=
  rfl
